import Mathlib

/-!
Shallow embedding of `generative_recommenders/modules/preprocessors.py`:
the `ContextualPreprocessor` input preprocessor and its helper
`_get_contextual_input_embeddings`, together with the jagged-tensor
collaborators it calls (`jagged_to_padded_dense`, `concat_2D_jagged`,
`torch.ops.fbgemm.asynchronous_complete_cumsum`), modelled over exact
integers.  A 2-D tensor of shape [N, D] is a `List (List ℤ)` of N rows;
a 1-D integer tensor is a `List ℤ` or `List ℕ`.
-/

/-- A 1-D integer vector (one row of a 2-D tensor). -/
abbrev Vec := List ℤ

/-- A 2-D tensor as a list of rows. -/
abbrev Mat := List Vec

/-- An entry of the `seq_payloads` dictionary: payload tensors are either
1-D integer tensors (the per-feature `<name>_offsets`) or 2-D value
tensors (the per-feature jagged values). -/
inductive Tensor where
  | ints : List ℤ → Tensor
  | vecs : Mat → Tensor
deriving DecidableEq

/-- Read a payload tensor as a 1-D integer tensor. -/
def Tensor.asInts : Tensor → List ℤ
  | .ints v => v
  | .vecs _ => []

/-- Read a payload tensor as a 2-D tensor. -/
def Tensor.asVecs : Tensor → Mat
  | .ints _ => []
  | .vecs v => v

/-- Dictionary access `seq_payloads[key]` on the association-list model of
the payload dict. -/
def lookupTensor (p : List (String × Tensor)) (k : String) : Tensor :=
  (p.lookup k).getD (Tensor.ints [])

/-- Modelled from the spec: `torch.ops.fbgemm.asynchronous_complete_cumsum`
is the external prefix-sum collaborator of section 6
(`asynchronous_cumulative_offset(lengths[B]) -> offsets[B+1]`): the
exclusive prefix sum of the lengths, of size B+1, whose first element is 0. -/
def asynchronous_complete_cumsum (lengths : List ℕ) : List ℕ :=
  (List.range (lengths.length + 1)).map (fun i => (lengths.take i).sum)

/-- Modelled from the spec: `jagged_to_padded_dense` (the PaddingConverter of
section 4.2) is imported from `generative_recommenders.common`, whose code is
not among the given sources.  For each example `i` it copies up to
`min(lengths[i], max_length)` vectors starting at `offsets[i]` into row `i`
of the output; positions beyond the copied count retain `padding_value`
(a constant row of width `d`, the value dimension, which a list model must
carry explicitly since lists hold no shape metadata).  Lengths and offsets
are not modified. -/
def jagged_to_padded_dense (values : Mat) (offsets : List ℕ) (max_length d : ℕ)
    (padding_value : ℤ) : List Mat :=
  (List.range (offsets.length - 1)).map (fun i =>
    let start := offsets.getD i 0
    let len := offsets.getD (i + 1) 0 - start
    let copied := min len max_length
    ((values.drop start).take copied)
      ++ List.replicate (max_length - copied) (List.replicate d padding_value))

/-- Modelled from the spec: `concat_2D_jagged` (the JaggedConcatenator of
section 4.4) is imported from `generative_recommenders.ops.jagged_tensors`,
whose code is not among the given sources.  With `offsets_left = None` (the
only form the preprocessor uses) the left block has fixed per-example length
`max_len_left`; for each example `i` the merged output is
`values_left[i*max_len_left : (i+1)*max_len_left] ++
values_right[offsets_right[i] : offsets_right[i+1]]`, placed contiguously
per example, with examples laid out back-to-back in order. -/
def concat_2D_jagged (values_left values_right : Mat) (max_len_left : ℕ)
    (offsets_right : List ℕ) : Mat :=
  (List.range (offsets_right.length - 1)).flatMap (fun i =>
    ((values_left.drop (i * max_len_left)).take max_len_left)
      ++ ((values_right.drop (offsets_right.getD i 0)).take
            (offsets_right.getD (i + 1) 0 - offsets_right.getD i 0)))

/-- The body of the feature loop of `_get_contextual_input_embeddings`
(preprocessors.py lines 78-92) for one contextual feature `key` with
declared width `max_len`: pad the feature's jagged payload values to a
dense [B, max_len, d] block, flatten to [B, max_len*d], then apply the
minimum-history gate `v * (seq_lengths.view(-1, 1) >= min_uih_length)`
when the feature declares `min_uih_length > 0`. -/
def feature_dense (seq_lengths : List ℕ) (seq_payloads : List (String × Tensor))
    (key : String) (max_len : ℕ)
    (contextual_feature_to_min_uih_length : List (String × ℕ)) (d : ℕ) : Mat :=
  let vals := (lookupTensor seq_payloads key).asVecs
  let offs := ((lookupTensor seq_payloads (key ++ "_offsets")).asInts).map Int.toNat
  let v := (jagged_to_padded_dense vals offs max_len d 0).map List.flatten
  let min_uih_length := (contextual_feature_to_min_uih_length.lookup key).getD 0
  if 0 < min_uih_length then
    List.zipWith (fun len row =>
      row.map (fun x => x * (if min_uih_length ≤ len then 1 else 0))) seq_lengths v
  else v

/-- Row-wise concatenation `torch.cat(·, dim=1)` of two matrices with the
same number of rows. -/
def hcat (a b : Mat) : Mat := List.zipWith (fun r s => r ++ s) a b

/-- `_get_contextual_input_embeddings` (preprocessors.py lines 70-94): pad
and gate every declared contextual feature in declaration order, then
concatenate the flattened per-feature blocks along dim 1 into the dense
contextual matrix of shape [B, C*d]. -/
def get_contextual_input_embeddings (seq_lengths : List ℕ)
    (seq_payloads : List (String × Tensor))
    (contextual_feature_to_max_length : List (String × ℕ))
    (contextual_feature_to_min_uih_length : List (String × ℕ)) (d : ℕ) : Mat :=
  (contextual_feature_to_max_length.map (fun kv =>
      feature_dense seq_lengths seq_payloads kv.1 kv.2
        contextual_feature_to_min_uih_length d)).foldl
    hcat (List.replicate seq_lengths.length [])

/-- Dot product of two integer vectors. -/
def dot (a b : Vec) : ℤ := (List.zipWith (fun x y => x * y) a b).sum

/-- Element-wise sum of two vectors. -/
def addVec (a b : Vec) : Vec := List.zipWith (fun x y => x + y) a b

/-- Vector-matrix product `v @ w` for `w : [d_in, d_out]`. -/
def vecMat (v : Vec) (w : Mat) : Vec := w.transpose.map (fun col => dot v col)

/-- The batched per-slot affine transform of `ContextualPreprocessor.forward`
(preprocessors.py lines 190-198):
`torch.baddbmm(bias.view(S, 1, d_out), dense.view(B, S, d_in).transpose(0, 1),
weights).transpose(0, 1)`, written entrywise: entry [b][s] equals
`dense_row_b[s*d_in : (s+1)*d_in] @ weights[s] + bias[s]` (the two
`transpose(0, 1)` calls are pure layout views that cancel in the entrywise
form).  Output shape [B, S, d_out]. -/
def batched_slot_projection (S d_in : ℕ) (weights : List Mat) (bias : Mat)
    (dense : Mat) : List Mat :=
  dense.map (fun row => (List.range S).map (fun s =>
    addVec (vecMat ((row.drop (s * d_in)).take d_in) (weights.getD s []))
      (bias.getD s [])))

/-- The learned state of a `ContextualPreprocessor` (preprocessors.py lines
103-157).  The content MLP is the external `ContentEmbeddingMLP`
collaborator, modelled as an abstract row function applied to every
embedding row. -/
structure ContextualPreprocessor where
  input_embedding_dim : ℕ
  output_embedding_dim : ℕ
  contextual_feature_to_max_length : List (String × ℕ)
  contextual_feature_to_min_uih_length : List (String × ℕ)
  batched_contextual_linear_weights : List Mat
  batched_contextual_linear_bias : Mat
  content_embedding_mlp : Vec → Vec

/-- `self._max_contextual_seq_len`: the sum of every contextual feature's
declared max length (the total contextual width C). -/
def ContextualPreprocessor.max_contextual_seq_len (m : ContextualPreprocessor) : ℕ :=
  (m.contextual_feature_to_max_length.map Prod.snd).sum

/-- The projected contextual block of `forward` (preprocessors.py lines
183-198) flattened to [B*C, d_out] rows (`.reshape(-1, output_dim)`), ready
for the left side of the jagged concatenation. -/
def projected_contextual (m : ContextualPreprocessor) (seq_lengths : List ℕ)
    (seq_payloads : List (String × Tensor)) : Mat :=
  (batched_slot_projection m.max_contextual_seq_len m.input_embedding_dim
      m.batched_contextual_linear_weights m.batched_contextual_linear_bias
      (get_contextual_input_embeddings seq_lengths seq_payloads
        m.contextual_feature_to_max_length m.contextual_feature_to_min_uih_length
        m.input_embedding_dim)).flatten

/-- The 7-tuple returned by `InputPreprocessor.forward`, as a record in the
tuple's field order. -/
structure ForwardOutput where
  max_seq_len : ℕ
  seq_lengths : List ℕ
  seq_offsets : List ℕ
  seq_timestamps : List ℤ
  seq_embeddings : Mat
  num_targets : List ℕ
  seq_payloads : List (String × Tensor)
deriving DecidableEq

/-- `ContextualPreprocessor.forward` (preprocessors.py lines 159-244):
compute offsets from the input lengths, run the content MLP over every
embedding row, and when the total contextual width C is positive, pad,
gate and project the contextual features, prepend them per example to the
embeddings (and zero timestamps to the timestamps) with `concat_2D_jagged`,
and grow max_seq_len and every length by C, recomputing offsets. -/
def ContextualPreprocessor.forward (m : ContextualPreprocessor) (max_seq_len : ℕ)
    (seq_lengths : List ℕ) (seq_timestamps : List ℤ) (seq_embeddings : Mat)
    (num_targets : List ℕ) (seq_payloads : List (String × Tensor)) : ForwardOutput :=
  let output_max_seq_len := max_seq_len
  let output_seq_lengths := seq_lengths
  let output_seq_offsets := asynchronous_complete_cumsum output_seq_lengths
  let output_seq_timestamps := seq_timestamps
  let output_seq_embeddings := seq_embeddings.map m.content_embedding_mlp
  let output_num_targets := num_targets
  let output_seq_payloads := seq_payloads
  if 0 < m.max_contextual_seq_len then
    let contextual_embeddings := projected_contextual m seq_lengths seq_payloads
    ⟨output_max_seq_len + m.max_contextual_seq_len,
     output_seq_lengths.map (fun l => l + m.max_contextual_seq_len),
     asynchronous_complete_cumsum
       (output_seq_lengths.map (fun l => l + m.max_contextual_seq_len)),
     (concat_2D_jagged
        (List.replicate (output_seq_lengths.length * m.max_contextual_seq_len) [0])
        (output_seq_timestamps.map (fun t => [t]))
        m.max_contextual_seq_len output_seq_offsets).map (fun v => v.headD 0),
     concat_2D_jagged contextual_embeddings output_seq_embeddings
       m.max_contextual_seq_len output_seq_offsets,
     output_num_targets, output_seq_payloads⟩
  else
    ⟨output_max_seq_len, output_seq_lengths, output_seq_offsets,
     output_seq_timestamps, output_seq_embeddings, output_num_targets,
     output_seq_payloads⟩

/-- `ContextualPreprocessor.interleave_targets` (preprocessors.py lines
246-247): always false for this variant. -/
def ContextualPreprocessor.interleave_targets (_ : ContextualPreprocessor) : Bool :=
  false

/-! ### Concrete fixtures used by the evaluation witnesses -/

/-- A concrete payload dictionary: feature "ctx" has jagged lengths [2, 1],
feature "u" has jagged lengths [1, 1], value dimension 1. -/
def witnessPayloads : List (String × Tensor) :=
  [("ctx", Tensor.vecs [[10], [20], [30]]), ("ctx_offsets", Tensor.ints [0, 2, 3]),
   ("u", Tensor.vecs [[7], [8]]), ("u_offsets", Tensor.ints [0, 1, 2])]

/-- A concrete preprocessor with contextual width 3 (features "ctx" of max
length 2 and "u" of max length 1, "ctx" gated at minimum history 3). -/
def witnessModule : ContextualPreprocessor :=
  { input_embedding_dim := 1, output_embedding_dim := 1,
    contextual_feature_to_max_length := [("ctx", 2), ("u", 1)],
    contextual_feature_to_min_uih_length := [("ctx", 3)],
    batched_contextual_linear_weights := [[[2]], [[3]], [[5]]],
    batched_contextual_linear_bias := [[1], [1], [1]],
    content_embedding_mlp := fun r => r.map (fun x => x + 100) }

/-- A concrete preprocessor with no contextual features (width 0). -/
def witnessModule0 : ContextualPreprocessor :=
  { input_embedding_dim := 1, output_embedding_dim := 1,
    contextual_feature_to_max_length := [],
    contextual_feature_to_min_uih_length := [],
    batched_contextual_linear_weights := [],
    batched_contextual_linear_bias := [],
    content_embedding_mlp := fun r => r.map (fun x => x + 100) }


/-! ### Offset-algebra helper lemmas -/

theorem acc_length (l : List ℕ) :
    (asynchronous_complete_cumsum l).length = l.length + 1 := by
  simp [asynchronous_complete_cumsum]

theorem acc_getD (l : List ℕ) (i : ℕ) (h : i ≤ l.length) :
    (asynchronous_complete_cumsum l).getD i 0 = (l.take i).sum := by
  have hi : i < l.length + 1 := Nat.lt_succ_of_le h
  simp [asynchronous_complete_cumsum, List.getElem?_range hi]

theorem take_sum_succ (l : List ℕ) (i : ℕ) (h : i < l.length) :
    (l.take (i + 1)).sum = (l.take i).sum + l.getD i 0 := by
  rw [List.take_succ, List.getElem?_eq_getElem h, List.getD_eq_getElem?_getD,
    List.getElem?_eq_getElem h, Option.toList_some, List.sum_append,
    List.sum_cons, List.sum_nil, Option.getD_some, Nat.add_zero]

theorem sum_map_add_const (l : List ℕ) (c : ℕ) :
    (l.map (fun x => x + c)).sum = l.sum + l.length * c := by
  induction l with
  | nil => simp
  | cons a t ih => simp [ih]; ring

/-- Extracting the i-th block of a flat-mapped range: dropping the total
length of the first i blocks and taking the i-th block's length recovers
exactly the i-th block. -/
theorem flatMap_range_extract {α : Type} :
    ∀ (n : ℕ) (f : ℕ → List α) (i : ℕ), i < n →
      (((List.range n).flatMap f).drop
          (((List.range i).map (fun j => (f j).length)).sum)).take (f i).length
        = f i := by
  intro n
  induction n with
  | zero => intro f i h; exact absurd h (Nat.not_lt_zero i)
  | succ m ih =>
    intro f i h
    rw [List.range_succ_eq_map, List.flatMap_cons]
    cases i with
    | zero =>
      simp only [List.range_zero, List.map_nil, List.sum_nil, List.drop_zero]
      exact List.take_left _ _
    | succ j =>
      have hj : j < m := Nat.lt_of_succ_lt_succ h
      rw [List.range_succ_eq_map, List.map_cons, List.sum_cons, List.map_map]
      rw [← List.drop_drop, List.drop_left]
      rw [List.flatMap_map]
      have := ih (fun k => f (Nat.succ k)) j hj
      simpa [Function.comp, Nat.succ_eq_add_one] using this

/-! ### Claim theorems: offset invariant and pass-through behaviour -/

/-- C2: every offsets array `forward` computes is the complete cumulative
sum of the corresponding lengths array: it has size B+1, starts at 0, has
consecutive differences equal to the lengths, ends at the total sum, and is
monotonically non-decreasing; and `forward` returns offsets that are
exactly this cumulative sum of its returned lengths, in both branches
(internally the initial offsets are likewise
`asynchronous_complete_cumsum seq_lengths` by definition of `forward`). -/
theorem offsets_invariant :
    (∀ lengths : List ℕ,
      (asynchronous_complete_cumsum lengths).length = lengths.length + 1 ∧
      (asynchronous_complete_cumsum lengths).getD 0 0 = 0 ∧
      (∀ i, i < lengths.length →
        (asynchronous_complete_cumsum lengths).getD (i + 1) 0
          - (asynchronous_complete_cumsum lengths).getD i 0 = lengths.getD i 0) ∧
      (asynchronous_complete_cumsum lengths).getD lengths.length 0 = lengths.sum ∧
      (∀ i, i < lengths.length →
        (asynchronous_complete_cumsum lengths).getD i 0
          ≤ (asynchronous_complete_cumsum lengths).getD (i + 1) 0)) ∧
    (∀ (m : ContextualPreprocessor) (max_seq_len : ℕ) (seq_lengths : List ℕ)
        (seq_timestamps : List ℤ) (seq_embeddings : Mat) (num_targets : List ℕ)
        (seq_payloads : List (String × Tensor)),
      (m.forward max_seq_len seq_lengths seq_timestamps seq_embeddings
          num_targets seq_payloads).seq_offsets
        = asynchronous_complete_cumsum
            (m.forward max_seq_len seq_lengths seq_timestamps seq_embeddings
              num_targets seq_payloads).seq_lengths) := by
  constructor
  · intro lengths
    refine ⟨acc_length lengths, ?_, ?_, ?_, ?_⟩
    · rw [acc_getD lengths 0 (Nat.zero_le _)]
      rfl
    · intro i hi
      rw [acc_getD lengths (i + 1) hi, acc_getD lengths i (le_of_lt hi),
        take_sum_succ lengths i hi]
      omega
    · rw [acc_getD lengths lengths.length le_rfl, List.take_length]
    · intro i hi
      rw [acc_getD lengths (i + 1) hi, acc_getD lengths i (le_of_lt hi),
        take_sum_succ lengths i hi]
      omega
  · intro m max_seq_len seq_lengths seq_timestamps seq_embeddings num_targets
      seq_payloads
    unfold ContextualPreprocessor.forward
    by_cases h : 0 < m.max_contextual_seq_len <;> simp [h]

/-- Witness for C2 at lengths [2, 3] and i = 1. -/
theorem offsets_invariant_witness :
    (asynchronous_complete_cumsum [2, 3]).getD 2 0
        - (asynchronous_complete_cumsum [2, 3]).getD 1 0 = [2, 3].getD 1 0 :=
  (offsets_invariant.1 [2, 3]).2.2.1 1 (by decide)

/-- C6: `forward` returns `num_targets` and `seq_payloads` unchanged,
whether or not contextual prepending occurs. -/
theorem forward_preserves_targets_payloads (m : ContextualPreprocessor)
    (max_seq_len : ℕ) (seq_lengths : List ℕ) (seq_timestamps : List ℤ)
    (seq_embeddings : Mat) (num_targets : List ℕ)
    (seq_payloads : List (String × Tensor)) :
    (m.forward max_seq_len seq_lengths seq_timestamps seq_embeddings
        num_targets seq_payloads).num_targets = num_targets ∧
    (m.forward max_seq_len seq_lengths seq_timestamps seq_embeddings
        num_targets seq_payloads).seq_payloads = seq_payloads := by
  unfold ContextualPreprocessor.forward
  by_cases h : 0 < m.max_contextual_seq_len <;> simp [h]

/-- C4: when the total contextual width is 0, `forward` returns its inputs
unchanged except that offsets are the cumulative sum of the input lengths
and embeddings are the content MLP applied row-wise; no concatenation or
contextual projection occurs. -/
theorem forward_zero_contextual_width (m : ContextualPreprocessor)
    (max_seq_len : ℕ) (seq_lengths : List ℕ) (seq_timestamps : List ℤ)
    (seq_embeddings : Mat) (num_targets : List ℕ)
    (seq_payloads : List (String × Tensor))
    (h : m.max_contextual_seq_len = 0) :
    m.forward max_seq_len seq_lengths seq_timestamps seq_embeddings
        num_targets seq_payloads
      = ⟨max_seq_len, seq_lengths, asynchronous_complete_cumsum seq_lengths,
         seq_timestamps, seq_embeddings.map m.content_embedding_mlp,
         num_targets, seq_payloads⟩ := by
  unfold ContextualPreprocessor.forward
  simp [h]

/-- C5: when the total contextual width C is positive, `forward` grows
max_seq_len by C, grows every example's length by C uniformly, and
recomputes offsets as the cumulative sum of the new lengths. -/
theorem forward_positive_contextual_width (m : ContextualPreprocessor)
    (max_seq_len : ℕ) (seq_lengths : List ℕ) (seq_timestamps : List ℤ)
    (seq_embeddings : Mat) (num_targets : List ℕ)
    (seq_payloads : List (String × Tensor))
    (h : 0 < m.max_contextual_seq_len) :
    (m.forward max_seq_len seq_lengths seq_timestamps seq_embeddings
        num_targets seq_payloads).max_seq_len
      = max_seq_len + m.max_contextual_seq_len ∧
    (m.forward max_seq_len seq_lengths seq_timestamps seq_embeddings
        num_targets seq_payloads).seq_lengths
      = seq_lengths.map (fun l => l + m.max_contextual_seq_len) ∧
    (∀ i, i < seq_lengths.length →
      (m.forward max_seq_len seq_lengths seq_timestamps seq_embeddings
          num_targets seq_payloads).seq_lengths.getD i 0
        = seq_lengths.getD i 0 + m.max_contextual_seq_len) ∧
    (m.forward max_seq_len seq_lengths seq_timestamps seq_embeddings
        num_targets seq_payloads).seq_offsets
      = asynchronous_complete_cumsum
          (seq_lengths.map (fun l => l + m.max_contextual_seq_len)) := by
  unfold ContextualPreprocessor.forward
  rw [if_pos h]
  refine ⟨rfl, rfl, ?_, rfl⟩
  intro i hi
  simp [List.getD_eq_getElem?_getD, List.getElem?_eq_getElem hi,
    List.getElem?_eq_getElem (show i < (seq_lengths.map
      (fun l => l + m.max_contextual_seq_len)).length by simpa using hi)]

/-! ### Claim theorems: slot independence and padding -/

/-- C8: in the batched slot projection, each slot's output depends only on
that slot's own input column, weight matrix and bias: if two parameter
sets agree on every slot other than s, the projected outputs agree at
every slot other than s, for every batch row. -/
theorem slot_independence (S d_in : ℕ) (weights weights' : List Mat)
    (bias bias' : Mat) (dense : Mat) (s : ℕ)
    (hw : ∀ t, t ≠ s → weights.getD t [] = weights'.getD t [])
    (hb : ∀ t, t ≠ s → bias.getD t [] = bias'.getD t []) :
    ∀ b t, t ≠ s →
      ((batched_slot_projection S d_in weights bias dense).getD b []).getD t []
        = ((batched_slot_projection S d_in weights' bias' dense).getD b []).getD t [] := by
  intro b t ht
  unfold batched_slot_projection
  simp only [List.getD_eq_getElem?_getD, List.getElem?_map]
  rcases Nat.lt_or_ge b dense.length with hbB | hbB
  · simp only [List.getElem?_eq_getElem hbB, Option.map_some', Option.getD_some,
      List.getElem?_map]
    rcases Nat.lt_or_ge t S with htS | htS
    · have hw' := hw t ht
      have hb' := hb t ht
      simp only [List.getD_eq_getElem?_getD] at hw' hb'
      simp only [List.getElem?_range htS, Option.map_some', Option.getD_some,
        hw', hb']
    · have hnone : (List.range S)[t]? = none :=
        List.getElem?_eq_none (by simpa using htS)
      simp only [hnone, Option.map_none', Option.getD_none]
  · have hnone : dense[b]? = none := List.getElem?_eq_none hbB
    simp only [hnone, Option.map_none', Option.getD_none]

/-- Witness for C8: perturbing slot 1's weight and bias leaves slot 0's
output unchanged on a concrete batch. -/
theorem slot_independence_witness :
    ((batched_slot_projection 2 1 [[[2]], [[3]]] [[1], [1]] [[4, 5]]).getD 0 []).getD 0 []
      = ((batched_slot_projection 2 1 [[[2]], [[7]]] [[1], [9]] [[4, 5]]).getD 0 []).getD 0 [] :=
  slot_independence 2 1 [[[2]], [[3]]] [[[2]], [[7]]] [[1], [1]] [[1], [9]] [[4, 5]] 1
    (by intro t ht
        match t with
        | 0 => rfl
        | 1 => exact absurd rfl ht
        | n + 2 => rfl)
    (by intro t ht
        match t with
        | 0 => rfl
        | 1 => exact absurd rfl ht
        | n + 2 => rfl)
    0 0 (by decide)

/-- C7: for an example whose jagged length is at most `max_length`, padding
then taking the first `length` rows reproduces the original jagged slice
exactly, and every row past the copied count equals the constant fill row;
padding is a pure function that returns only the dense result, leaving
lengths and offsets untouched. -/
theorem padding_round_trip (values : Mat) (offsets : List ℕ)
    (max_length d : ℕ) (fill : ℤ) (i : ℕ)
    (hi : i + 1 < offsets.length)
    (hlen : offsets.getD (i + 1) 0 - offsets.getD i 0 ≤ max_length)
    (hvals : offsets.getD (i + 1) 0 ≤ values.length) :
    (((jagged_to_padded_dense values offsets max_length d fill).getD i []).take
        (offsets.getD (i + 1) 0 - offsets.getD i 0)
      = (values.drop (offsets.getD i 0)).take
          (offsets.getD (i + 1) 0 - offsets.getD i 0)) ∧
    (∀ j, offsets.getD (i + 1) 0 - offsets.getD i 0 ≤ j → j < max_length →
      ((jagged_to_padded_dense values offsets max_length d fill).getD i []).getD j []
        = List.replicate d fill) := by
  have hiB : i < offsets.length - 1 := by omega
  have hrow : (jagged_to_padded_dense values offsets max_length d fill).getD i []
      = ((values.drop (offsets.getD i 0)).take
          (min (offsets.getD (i + 1) 0 - offsets.getD i 0) max_length))
        ++ List.replicate
            (max_length - min (offsets.getD (i + 1) 0 - offsets.getD i 0) max_length)
            (List.replicate d fill) := by
    unfold jagged_to_padded_dense
    rw [List.getD_eq_getElem?_getD, List.getElem?_map,
      List.getElem?_range hiB]
    rfl
  have hmin : min (offsets.getD (i + 1) 0 - offsets.getD i 0) max_length
      = offsets.getD (i + 1) 0 - offsets.getD i 0 := Nat.min_eq_left hlen
  have hslice : ((values.drop (offsets.getD i 0)).take
      (offsets.getD (i + 1) 0 - offsets.getD i 0)).length
      = offsets.getD (i + 1) 0 - offsets.getD i 0 := by
    rw [List.length_take, List.length_drop]
    omega
  constructor
  · rw [hrow, hmin, List.take_left' hslice]
  · intro j hj hjmax
    rw [hrow, hmin, List.getD_append_right _ _ _ _ (by rw [hslice]; exact hj)]
    rw [List.getD_eq_getElem?_getD, List.getElem?_replicate_of_lt (by rw [hslice]; omega)]
    rfl

/-- Witness for C7 at a concrete jagged tensor, example 0 of lengths [2, 1],
max_length 3. -/
theorem padding_round_trip_witness :
    ((((jagged_to_padded_dense [[10], [20], [30]] [0, 2, 3] 3 1 0).getD 0 []).take
        ([0, 2, 3].getD 1 0 - [0, 2, 3].getD 0 0)
      = (([[10], [20], [30]] : Mat).drop ([0, 2, 3].getD 0 0)).take
          ([0, 2, 3].getD 1 0 - [0, 2, 3].getD 0 0))) ∧
    ((jagged_to_padded_dense [[10], [20], [30]] [0, 2, 3] 3 1 0).getD 0 []).getD 2 []
      = List.replicate 1 0 :=
  ⟨(padding_round_trip [[10], [20], [30]] [0, 2, 3] 3 1 0 0 (by decide) (by decide)
      (by decide)).1,
   (padding_round_trip [[10], [20], [30]] [0, 2, 3] 3 1 0 0 (by decide) (by decide)
      (by decide)).2 2 (by decide) (by decide)⟩

/-- Witness for C4: with contextual width 0, the output is the input tuple
with cumulative-sum offsets and MLP-transformed embeddings. -/
theorem forward_zero_contextual_width_witness :
    witnessModule0.forward 3 [2, 3] [11, 12, 13, 14, 15]
        [[1], [2], [3], [4], [5]] [1, 1] witnessPayloads
      = ⟨3, [2, 3], [0, 2, 5], [11, 12, 13, 14, 15],
         [[101], [102], [103], [104], [105]], [1, 1], witnessPayloads⟩ :=
  (forward_zero_contextual_width witnessModule0 3 [2, 3] [11, 12, 13, 14, 15]
      [[1], [2], [3], [4], [5]] [1, 1] witnessPayloads rfl).trans (by decide)

/-- Witness for C5: with contextual width 3, example 0's output length is
its input length plus 3. -/
theorem forward_positive_contextual_width_witness :
    (witnessModule.forward 3 [2, 3] [11, 12, 13, 14, 15]
        [[1], [2], [3], [4], [5]] [1, 1] witnessPayloads).seq_lengths.getD 0 0
      = [2, 3].getD 0 0 + witnessModule.max_contextual_seq_len :=
  (forward_positive_contextual_width witnessModule 3 [2, 3] [11, 12, 13, 14, 15]
      [[1], [2], [3], [4], [5]] [1, 1] witnessPayloads (by decide)).2.2.1 0
    (by decide)

/-! ### The minimum-history gate -/

/-- Row i of a gated feature block, in the multiplicative form of the
source: the padded flattened row times the boolean mask
`seq_lengths[i] >= k` cast to 0 or 1. -/
theorem feature_dense_gated_row (seq_lengths : List ℕ)
    (seq_payloads : List (String × Tensor)) (key : String)
    (featMin : List (String × ℕ)) (max_len d k i : ℕ)
    (hk : (featMin.lookup key).getD 0 = k) (hk0 : 0 < k)
    (hi : i < seq_lengths.length)
    (hv : i < ((jagged_to_padded_dense ((lookupTensor seq_payloads key).asVecs)
        (((lookupTensor seq_payloads (key ++ "_offsets")).asInts).map Int.toNat)
        max_len d 0).map List.flatten).length) :
    (feature_dense seq_lengths seq_payloads key max_len featMin d).getD i []
      = (((jagged_to_padded_dense ((lookupTensor seq_payloads key).asVecs)
            (((lookupTensor seq_payloads (key ++ "_offsets")).asInts).map Int.toNat)
            max_len d 0).map List.flatten).getD i []).map
          (fun x => x * (if k ≤ seq_lengths.getD i 0 then 1 else 0)) := by
  unfold feature_dense
  simp only [hk]
  rw [if_pos hk0]
  have hzip : i < (List.zipWith (fun len row => row.map
      (fun x => x * (if k ≤ len then 1 else 0))) seq_lengths
      ((jagged_to_padded_dense ((lookupTensor seq_payloads key).asVecs)
        (((lookupTensor seq_payloads (key ++ "_offsets")).asInts).map Int.toNat)
        max_len d 0).map List.flatten)).length := by
    rw [List.length_zipWith]
    omega
  simp only [List.getD_eq_getElem?_getD, List.getElem?_eq_getElem hzip,
    List.getElem?_eq_getElem hv, List.getElem?_eq_getElem hi,
    Option.getD_some, List.getElem_zipWith]

/-- C3: for a contextual feature declaring minimum history length k > 0,
an example with seq_length < k has an all-zero dense row after gating,
for any raw payload values; an example with seq_length ≥ k keeps its
padded flattened row unchanged. -/
theorem min_length_gate (seq_lengths : List ℕ)
    (seq_payloads : List (String × Tensor)) (key : String)
    (featMin : List (String × ℕ)) (max_len d k i : ℕ)
    (hk : (featMin.lookup key).getD 0 = k) (hk0 : 0 < k)
    (hi : i < seq_lengths.length)
    (hv : i < ((jagged_to_padded_dense ((lookupTensor seq_payloads key).asVecs)
        (((lookupTensor seq_payloads (key ++ "_offsets")).asInts).map Int.toNat)
        max_len d 0).map List.flatten).length) :
    (seq_lengths.getD i 0 < k →
      ∀ x ∈ (feature_dense seq_lengths seq_payloads key max_len featMin d).getD i [],
        x = 0) ∧
    (k ≤ seq_lengths.getD i 0 →
      (feature_dense seq_lengths seq_payloads key max_len featMin d).getD i []
        = ((jagged_to_padded_dense ((lookupTensor seq_payloads key).asVecs)
            (((lookupTensor seq_payloads (key ++ "_offsets")).asInts).map Int.toNat)
            max_len d 0).map List.flatten).getD i []) := by
  have hrow := feature_dense_gated_row seq_lengths seq_payloads key featMin
    max_len d k i hk hk0 hi hv
  constructor
  · intro hlt x hx
    rw [hrow, if_neg (by omega)] at hx
    rcases List.mem_map.mp hx with ⟨y, _, rfl⟩
    exact mul_zero y
  · intro hge
    rw [hrow, if_pos hge]
    simp [mul_one]

/-- Witness for C3: in the fixture, feature "ctx" has minimum history 3;
example 0 (length 2) has only zeros in its gated row, while example 1
(length 3) keeps its padded row unchanged. -/
theorem min_length_gate_witness :
    ((0 : ℤ) = 0) ∧
    (feature_dense [2, 3] witnessPayloads "ctx" 2 [("ctx", 3)] 1).getD 1 []
      = ((jagged_to_padded_dense ((lookupTensor witnessPayloads "ctx").asVecs)
          (((lookupTensor witnessPayloads ("ctx" ++ "_offsets")).asInts).map
            Int.toNat) 2 1 0).map List.flatten).getD 1 [] :=
  ⟨(min_length_gate [2, 3] witnessPayloads "ctx" [("ctx", 3)] 2 1 3 0
      (by decide) (by decide) (by decide) (by decide)).1 (by decide) 0 (by decide),
   (min_length_gate [2, 3] witnessPayloads "ctx" [("ctx", 3)] 2 1 3 1
      (by decide) (by decide) (by decide) (by decide)).2 (by decide)⟩

/-! ### Per-example layout of the jagged concatenation -/

theorem sum_take_le (l : List ℕ) (j : ℕ) : (l.take j).sum ≤ l.sum := by
  conv_rhs => rw [← List.take_append_drop j l]
  rw [List.sum_append]
  omega

theorem sum_range_add (C : ℕ) (g : ℕ → ℕ) (i : ℕ) :
    ((List.range i).map (fun j => C + g j)).sum
      = i * C + ((List.range i).map g).sum := by
  induction i with
  | zero => simp
  | succ n ih =>
    rw [List.range_succ, List.map_append, List.map_append, List.sum_append,
      List.sum_append, ih]
    simp only [List.map_cons, List.map_nil, List.sum_cons, List.sum_nil]
    ring

theorem take_sum_eq_range (l : List ℕ) (i : ℕ) (hi : i ≤ l.length) :
    ((List.range i).map (fun j => l.getD j 0)).sum = (l.take i).sum := by
  induction i with
  | zero => simp
  | succ j ih =>
    have hj : j < l.length := by omega
    rw [List.range_succ, List.map_append, List.sum_append, ih (by omega),
      take_sum_succ l j hj]
    simp

theorem acc_map_add (l : List ℕ) (C i : ℕ) (hi : i ≤ l.length) :
    (asynchronous_complete_cumsum (l.map (fun x => x + C))).getD i 0
      = i * C + (l.take i).sum := by
  rw [acc_getD _ i (by simpa using hi), ← List.map_take, sum_map_add_const,
    List.length_take, Nat.min_eq_left hi]
  omega

/-- Per-example slice of `concat_2D_jagged` over complete-cumsum offsets:
dropping to the merged offset of example i and then taking
C + lengths[i] elements yields exactly example i's fixed-width left block
followed by example i's right slice. -/
theorem concat_2D_extract (values_left values_right : Mat) (C : ℕ)
    (lengths : List ℕ) (i : ℕ) (hi : i < lengths.length)
    (hleft : values_left.length = lengths.length * C)
    (hright : values_right.length = lengths.sum) :
    ((concat_2D_jagged values_left values_right C
        (asynchronous_complete_cumsum lengths)).drop
          (i * C + (lengths.take i).sum)).take (C + lengths.getD i 0)
      = (values_left.drop (i * C)).take C
        ++ (values_right.drop ((lengths.take i).sum)).take (lengths.getD i 0) := by
  set B := lengths.length with hB
  have hlen : (asynchronous_complete_cumsum lengths).length - 1 = B := by
    rw [acc_length]
    omega
  set f : ℕ → Mat := fun j =>
    ((values_left.drop (j * C)).take C)
      ++ ((values_right.drop ((asynchronous_complete_cumsum lengths).getD j 0)).take
            ((asynchronous_complete_cumsum lengths).getD (j + 1) 0
              - (asynchronous_complete_cumsum lengths).getD j 0)) with hf
  have hconcat : concat_2D_jagged values_left values_right C
      (asynchronous_complete_cumsum lengths) = (List.range B).flatMap f := by
    rw [hf]
    unfold concat_2D_jagged
    rw [hlen]
  have hflen : ∀ j, j < B → (f j).length = C + lengths.getD j 0 := by
    intro j hj
    have h2' : (lengths.take j).sum + lengths.getD j 0 ≤ lengths.sum := by
      rw [← take_sum_succ lengths j hj]
      exact sum_take_le lengths (j + 1)
    have hjC : j * C + C ≤ B * C := by
      have hsucc : j + 1 ≤ B := hj
      calc j * C + C = (j + 1) * C := by ring
        _ ≤ B * C := Nat.mul_le_mul_right C hsucc
    rw [hf]
    simp only [List.length_append, List.length_take, List.length_drop]
    rw [acc_getD lengths j (le_of_lt hj), acc_getD lengths (j + 1) hj,
      take_sum_succ lengths j hj, hleft, hright]
    omega
  have hsum : ((List.range i).map (fun j => (f j).length)).sum
      = i * C + (lengths.take i).sum := by
    rw [List.map_congr_left (fun j hj =>
      hflen j (lt_trans (List.mem_range.mp hj) hi))]
    rw [sum_range_add C (fun j => lengths.getD j 0) i,
      take_sum_eq_range lengths i (le_of_lt hi)]
  have hext := flatMap_range_extract B f i hi
  rw [hconcat, ← hsum, ← hflen i hi, hext, hf]
  simp only []
  rw [acc_getD lengths i (le_of_lt hi), acc_getD lengths (i + 1) hi,
    take_sum_succ lengths i hi, Nat.add_sub_cancel_left]

/-- C1: with positive contextual width C, for each example i the output
embedding buffer contains, contiguously at example i's recomputed offset,
first the C projected contextual vectors of example i and then example i's
MLP-transformed content vectors — per-example interleaving in input order,
never a global left-block-then-right-block layout. -/
theorem contextual_prepend_layout (m : ContextualPreprocessor) (max_seq_len : ℕ)
    (seq_lengths : List ℕ) (seq_timestamps : List ℤ) (seq_embeddings : Mat)
    (num_targets : List ℕ) (seq_payloads : List (String × Tensor)) (i : ℕ)
    (hC : 0 < m.max_contextual_seq_len) (hi : i < seq_lengths.length)
    (hleft : (projected_contextual m seq_lengths seq_payloads).length
      = seq_lengths.length * m.max_contextual_seq_len)
    (hright : seq_embeddings.length = seq_lengths.sum) :
    ((m.forward max_seq_len seq_lengths seq_timestamps seq_embeddings num_targets
          seq_payloads).seq_embeddings.drop
        ((m.forward max_seq_len seq_lengths seq_timestamps seq_embeddings
            num_targets seq_payloads).seq_offsets.getD i 0)).take
      (m.max_contextual_seq_len + seq_lengths.getD i 0)
      = ((projected_contextual m seq_lengths seq_payloads).drop
            (i * m.max_contextual_seq_len)).take m.max_contextual_seq_len
        ++ ((seq_embeddings.map m.content_embedding_mlp).drop
              ((seq_lengths.take i).sum)).take (seq_lengths.getD i 0) := by
  have hemb : (m.forward max_seq_len seq_lengths seq_timestamps seq_embeddings
      num_targets seq_payloads).seq_embeddings
      = concat_2D_jagged (projected_contextual m seq_lengths seq_payloads)
          (seq_embeddings.map m.content_embedding_mlp) m.max_contextual_seq_len
          (asynchronous_complete_cumsum seq_lengths) := by
    unfold ContextualPreprocessor.forward
    rw [if_pos hC]
  have hoff : (m.forward max_seq_len seq_lengths seq_timestamps seq_embeddings
      num_targets seq_payloads).seq_offsets
      = asynchronous_complete_cumsum
          (seq_lengths.map (fun l => l + m.max_contextual_seq_len)) := by
    unfold ContextualPreprocessor.forward
    rw [if_pos hC]
  rw [hemb, hoff, acc_map_add seq_lengths m.max_contextual_seq_len i (le_of_lt hi)]
  exact concat_2D_extract _ _ _ seq_lengths i hi hleft (by simpa using hright)

/-- Witness for C1 at example 1 of the concrete fixture. -/
theorem contextual_prepend_layout_witness :
    ((witnessModule.forward 3 [2, 3] [11, 12, 13, 14, 15]
          [[1], [2], [3], [4], [5]] [1, 1] witnessPayloads).seq_embeddings.drop
        ((witnessModule.forward 3 [2, 3] [11, 12, 13, 14, 15]
            [[1], [2], [3], [4], [5]] [1, 1] witnessPayloads).seq_offsets.getD 1 0)).take
      (witnessModule.max_contextual_seq_len + [2, 3].getD 1 0)
      = ((projected_contextual witnessModule [2, 3] witnessPayloads).drop
            (1 * witnessModule.max_contextual_seq_len)).take
          witnessModule.max_contextual_seq_len
        ++ ((([[1], [2], [3], [4], [5]] : Mat).map
              witnessModule.content_embedding_mlp).drop (([2, 3].take 1).sum)).take
            ([2, 3].getD 1 0) :=
  contextual_prepend_layout witnessModule 3 [2, 3] [11, 12, 13, 14, 15]
    [[1], [2], [3], [4], [5]] [1, 1] witnessPayloads 1 (by decide) (by decide)
    (by decide) (by decide)

/-- C9: with positive contextual width C, every one of the C prepended
contextual positions of every example carries timestamp 0, and the
example's original content timestamps follow unchanged within that
example, via the same per-example concatenation as for embeddings. -/
theorem contextual_timestamps_zero (m : ContextualPreprocessor) (max_seq_len : ℕ)
    (seq_lengths : List ℕ) (seq_timestamps : List ℤ) (seq_embeddings : Mat)
    (num_targets : List ℕ) (seq_payloads : List (String × Tensor)) (i : ℕ)
    (hC : 0 < m.max_contextual_seq_len) (hi : i < seq_lengths.length)
    (hts : seq_timestamps.length = seq_lengths.sum) :
    ((m.forward max_seq_len seq_lengths seq_timestamps seq_embeddings num_targets
          seq_payloads).seq_timestamps.drop
        ((m.forward max_seq_len seq_lengths seq_timestamps seq_embeddings
            num_targets seq_payloads).seq_offsets.getD i 0)).take
      (m.max_contextual_seq_len + seq_lengths.getD i 0)
      = List.replicate m.max_contextual_seq_len 0
        ++ (seq_timestamps.drop ((seq_lengths.take i).sum)).take
            (seq_lengths.getD i 0) := by
  have htsdef : (m.forward max_seq_len seq_lengths seq_timestamps seq_embeddings
      num_targets seq_payloads).seq_timestamps
      = (concat_2D_jagged
          (List.replicate (seq_lengths.length * m.max_contextual_seq_len) [0])
          (seq_timestamps.map (fun t => [t])) m.max_contextual_seq_len
          (asynchronous_complete_cumsum seq_lengths)).map (fun v => v.headD 0) := by
    unfold ContextualPreprocessor.forward
    rw [if_pos hC]
  have hoff : (m.forward max_seq_len seq_lengths seq_timestamps seq_embeddings
      num_targets seq_payloads).seq_offsets
      = asynchronous_complete_cumsum
          (seq_lengths.map (fun l => l + m.max_contextual_seq_len)) := by
    unfold ContextualPreprocessor.forward
    rw [if_pos hC]
  rw [htsdef, hoff, acc_map_add seq_lengths m.max_contextual_seq_len i (le_of_lt hi)]
  rw [← List.map_drop, ← List.map_take]
  rw [concat_2D_extract _ _ _ seq_lengths i hi (by simp) (by simpa using hts)]
  rw [List.map_append]
  have hmin : min m.max_contextual_seq_len
      (seq_lengths.length * m.max_contextual_seq_len
        - i * m.max_contextual_seq_len) = m.max_contextual_seq_len := by
    have hle : i * m.max_contextual_seq_len + m.max_contextual_seq_len
        ≤ seq_lengths.length * m.max_contextual_seq_len := by
      have hsucc : i + 1 ≤ seq_lengths.length := hi
      calc i * m.max_contextual_seq_len + m.max_contextual_seq_len
          = (i + 1) * m.max_contextual_seq_len := by ring
        _ ≤ seq_lengths.length * m.max_contextual_seq_len :=
            Nat.mul_le_mul_right _ hsucc
    omega
  congr 1
  · rw [List.drop_replicate, List.take_replicate, hmin, List.map_replicate]
    rfl
  · have hcomp : ((fun v => List.headD v 0) ∘ fun t : ℤ => [t]) = id := by
      funext t
      rfl
    rw [← List.map_drop, ← List.map_take, List.map_map, hcomp, List.map_id]

/-- Witness for C9 at example 1 of the concrete fixture. -/
theorem contextual_timestamps_zero_witness :
    ((witnessModule.forward 3 [2, 3] [11, 12, 13, 14, 15]
          [[1], [2], [3], [4], [5]] [1, 1] witnessPayloads).seq_timestamps.drop
        ((witnessModule.forward 3 [2, 3] [11, 12, 13, 14, 15]
            [[1], [2], [3], [4], [5]] [1, 1] witnessPayloads).seq_offsets.getD 1 0)).take
      (witnessModule.max_contextual_seq_len + [2, 3].getD 1 0)
      = List.replicate witnessModule.max_contextual_seq_len 0
        ++ (([11, 12, 13, 14, 15] : List ℤ).drop (([2, 3].take 1).sum)).take
            ([2, 3].getD 1 0) :=
  contextual_timestamps_zero witnessModule 3 [2, 3] [11, 12, 13, 14, 15]
    [[1], [2], [3], [4], [5]] [1, 1] witnessPayloads 1 (by decide) (by decide)
    (by decide)

/-! ### Scoping of the minimum-history gate (claim C10) -/

/-- Row i of a left fold of row-wise concatenations: the initial row
followed by row i of every folded matrix, in order. -/
theorem foldl_hcat_getD (ms : List Mat) (init : Mat) (i : ℕ)
    (hinit : i < init.length) (hm : ∀ mt ∈ ms, i < mt.length) :
    (ms.foldl hcat init).getD i []
      = init.getD i [] ++ (ms.map (fun mt => mt.getD i [])).flatten := by
  induction ms generalizing init with
  | nil => simp
  | cons a t ih =>
    have hia : i < a.length := hm a (List.mem_cons_self a t)
    have hi2 : i < (hcat init a).length := by
      unfold hcat
      rw [List.length_zipWith]
      omega
    rw [List.foldl_cons,
      ih (hcat init a) hi2 (fun mt hmt => hm mt (List.mem_cons_of_mem a hmt)),
      List.map_cons, List.flatten_cons, ← List.append_assoc]
    congr 1
    simp only [hcat] at hi2 ⊢
    simp only [List.getD_eq_getElem?_getD, List.getElem?_eq_getElem hi2,
      List.getElem?_eq_getElem hinit, List.getElem?_eq_getElem hia,
      Option.getD_some, List.getElem_zipWith]

/-- C10: the minimum-history gate is scoped per feature.
(1) Row i of the dense contextual matrix is exactly the concatenation of
the per-feature gated blocks in declaration order, so each feature
occupies only its own column block.
(2) A feature's block depends on the gate map only through that feature's
own entry, so gating feature X leaves every other feature's block intact.
(3) An example whose sequence length equals the threshold exactly is not
zeroed: its row equals the ungated padded row.
(4) The content portion of the output embeddings equals the MLP image of
the input content slice, independent of any gating configuration. -/
theorem gate_scoped_per_feature :
    (∀ (sl : List ℕ) (sp : List (String × Tensor)) (F fm : List (String × ℕ))
        (d i : ℕ), i < sl.length →
      (∀ kv ∈ F, i < (feature_dense sl sp kv.1 kv.2 fm d).length) →
      (get_contextual_input_embeddings sl sp F fm d).getD i []
        = (F.map (fun kv =>
            (feature_dense sl sp kv.1 kv.2 fm d).getD i [])).flatten) ∧
    (∀ (sl : List ℕ) (sp : List (String × Tensor)) (key : String) (ml : ℕ)
        (fm fm' : List (String × ℕ)) (d : ℕ),
      fm.lookup key = fm'.lookup key →
      feature_dense sl sp key ml fm d = feature_dense sl sp key ml fm' d) ∧
    (∀ (sl : List ℕ) (sp : List (String × Tensor)) (key : String)
        (fm : List (String × ℕ)) (ml d k i : ℕ),
      (fm.lookup key).getD 0 = k → 0 < k → i < sl.length →
      i < ((jagged_to_padded_dense ((lookupTensor sp key).asVecs)
          (((lookupTensor sp (key ++ "_offsets")).asInts).map Int.toNat)
          ml d 0).map List.flatten).length →
      sl.getD i 0 = k →
      (feature_dense sl sp key ml fm d).getD i []
        = ((jagged_to_padded_dense ((lookupTensor sp key).asVecs)
            (((lookupTensor sp (key ++ "_offsets")).asInts).map Int.toNat)
            ml d 0).map List.flatten).getD i []) ∧
    (∀ (m : ContextualPreprocessor) (msl : ℕ) (sl : List ℕ) (ts : List ℤ)
        (emb : Mat) (nt : List ℕ) (sp : List (String × Tensor)) (i : ℕ),
      0 < m.max_contextual_seq_len → i < sl.length →
      (projected_contextual m sl sp).length
        = sl.length * m.max_contextual_seq_len →
      emb.length = sl.sum →
      ((m.forward msl sl ts emb nt sp).seq_embeddings.drop
          ((m.forward msl sl ts emb nt sp).seq_offsets.getD i 0
            + m.max_contextual_seq_len)).take (sl.getD i 0)
        = ((emb.map m.content_embedding_mlp).drop ((sl.take i).sum)).take
            (sl.getD i 0)) := by
  refine ⟨?_, ?_, ?_, ?_⟩
  · intro sl sp F fm d i hi hrows
    unfold get_contextual_input_embeddings
    rw [foldl_hcat_getD _ _ i (by simpa using hi)
      (by intro mt hmt
          rcases List.mem_map.mp hmt with ⟨kv, hkv, rfl⟩
          exact hrows kv hkv)]
    have hrep : (List.replicate sl.length ([] : Vec)).getD i [] = [] := by
      rw [List.getD_eq_getElem?_getD, List.getElem?_replicate]
      split <;> rfl
    rw [hrep, List.nil_append, List.map_map]
    rfl
  · intro sl sp key ml fm fm' d h
    simp only [feature_dense, h]
  · intro sl sp key fm ml d k i hk hk0 hi hv heq
    rw [feature_dense_gated_row sl sp key fm ml d k i hk hk0 hi hv,
      if_pos (le_of_eq heq.symm)]
    simp [mul_one]
  · intro m msl sl ts emb nt sp i hC hi hleft hright
    have hemb : (m.forward msl sl ts emb nt sp).seq_embeddings
        = concat_2D_jagged (projected_contextual m sl sp)
            (emb.map m.content_embedding_mlp) m.max_contextual_seq_len
            (asynchronous_complete_cumsum sl) := by
      unfold ContextualPreprocessor.forward
      rw [if_pos hC]
    have hoff : (m.forward msl sl ts emb nt sp).seq_offsets
        = asynchronous_complete_cumsum
            (sl.map (fun l => l + m.max_contextual_seq_len)) := by
      unfold ContextualPreprocessor.forward
      rw [if_pos hC]
    have hslice := concat_2D_extract (projected_contextual m sl sp)
      (emb.map m.content_embedding_mlp) m.max_contextual_seq_len sl i hi hleft
      (by simpa using hright)
    have hplus : i * m.max_contextual_seq_len + m.max_contextual_seq_len
        ≤ sl.length * m.max_contextual_seq_len := by
      have hsucc : i + 1 ≤ sl.length := hi
      calc i * m.max_contextual_seq_len + m.max_contextual_seq_len
          = (i + 1) * m.max_contextual_seq_len := by ring
        _ ≤ sl.length * m.max_contextual_seq_len := Nat.mul_le_mul_right _ hsucc
    have hLlen : (((projected_contextual m sl sp).drop
        (i * m.max_contextual_seq_len)).take m.max_contextual_seq_len).length
        = m.max_contextual_seq_len := by
      rw [List.length_take, List.length_drop, hleft]
      omega
    have h2 := congrArg (List.drop m.max_contextual_seq_len) hslice
    rw [List.drop_take, Nat.add_sub_cancel_left, List.drop_left' hLlen] at h2
    rw [hemb, hoff, acc_map_add sl m.max_contextual_seq_len i (le_of_lt hi),
      ← List.drop_drop]
    exact h2

/-- Witness for C10 on the concrete fixture: (1) row 0 of the dense matrix
splits into the per-feature blocks; (2) adding a threshold for "u" does not
change "ctx"'s block; (3) example 1, whose length equals the threshold 3,
is not zeroed; (4) example 1's content slice is its MLP image, independent
of gating. -/
theorem gate_scoped_per_feature_witness :
    ((get_contextual_input_embeddings [2, 3] witnessPayloads
        [("ctx", 2), ("u", 1)] [("ctx", 3)] 1).getD 0 []
      = (([("ctx", 2), ("u", 1)] : List (String × ℕ)).map (fun kv =>
          (feature_dense [2, 3] witnessPayloads kv.1 kv.2
            [("ctx", 3)] 1).getD 0 [])).flatten) ∧
    (feature_dense [2, 3] witnessPayloads "ctx" 2 [("ctx", 3)] 1
      = feature_dense [2, 3] witnessPayloads "ctx" 2 [("ctx", 3), ("u", 7)] 1) ∧
    ((feature_dense [2, 3] witnessPayloads "ctx" 2 [("ctx", 3)] 1).getD 1 []
      = ((jagged_to_padded_dense ((lookupTensor witnessPayloads "ctx").asVecs)
          (((lookupTensor witnessPayloads ("ctx" ++ "_offsets")).asInts).map
            Int.toNat) 2 1 0).map List.flatten).getD 1 []) ∧
    ((witnessModule.forward 3 [2, 3] [11, 12, 13, 14, 15]
          [[1], [2], [3], [4], [5]] [1, 1] witnessPayloads).seq_embeddings.drop
        ((witnessModule.forward 3 [2, 3] [11, 12, 13, 14, 15]
            [[1], [2], [3], [4], [5]] [1, 1] witnessPayloads).seq_offsets.getD 1 0
          + witnessModule.max_contextual_seq_len)).take ([2, 3].getD 1 0)
      = ((([[1], [2], [3], [4], [5]] : Mat).map
            witnessModule.content_embedding_mlp).drop (([2, 3].take 1).sum)).take
          ([2, 3].getD 1 0) :=
  ⟨gate_scoped_per_feature.1 [2, 3] witnessPayloads [("ctx", 2), ("u", 1)]
      [("ctx", 3)] 1 0 (by decide) (by decide),
   gate_scoped_per_feature.2.1 [2, 3] witnessPayloads "ctx" 2 [("ctx", 3)]
      [("ctx", 3), ("u", 7)] 1 (by decide),
   gate_scoped_per_feature.2.2.1 [2, 3] witnessPayloads "ctx" [("ctx", 3)] 2 1 3 1
      (by decide) (by decide) (by decide) (by decide) (by decide),
   gate_scoped_per_feature.2.2.2 witnessModule 3 [2, 3] [11, 12, 13, 14, 15]
      [[1], [2], [3], [4], [5]] [1, 1] witnessPayloads 1 (by decide) (by decide)
      (by decide) (by decide)⟩
